import Mathlib

/-!
Verification of the `rust-unicorn` Joplin AppImage installer
(`src/main.rs`) against its specification.

The program is a single linear pipeline: parse flags, ensure the install
directory exists, fetch the latest-release JSON, pick the first asset whose
name ends in ".AppImage", short-circuit when the file already exists,
otherwise stream-download it, chmod it, and (re)create a `joplin` symlink.

We embed the pipeline as pure Lean functions.  Filesystem and network are
modelled as oracles (`FS`, `Net`): each oracle field records the answer the
OS or the remote side would give at the single program point where the
source queries it.  Every externally visible action the program performs is
recorded, in program order, in a trace of `Eff` values, and the exit status
is an `Except Err Unit` (`.ok ()` = exit code 0, `.error _` = non-zero).
-/

namespace RustUnicorn

/-- JSON shape of one downloadable file of a release (main.rs lines 20-24). -/
structure Asset where
  name : String
  browser_download_url : String
  deriving DecidableEq, Repr

/-- JSON shape of the latest-release document (main.rs lines 14-18). -/
structure Release where
  tag_name : String
  assets : List Asset
  deriving DecidableEq, Repr

/-- Configuration accumulated by the argument loop (main.rs lines 31-34). -/
structure Config where
  install_dir : String
  create_symlink : Bool
  force_update : Bool
  quiet : Bool
  deriving DecidableEq, Repr

/-- Result of the argument loop: either the `--help` early return of
main.rs lines 51-54, or the final configuration. -/
inductive ParseResult where
  | help
  | proceed (cfg : Config)
  deriving DecidableEq, Repr

/-- Kind of filesystem entry present at a path.  `liveSymlink` is a symbolic
link whose target exists, `danglingSymlink` one whose target does not. -/
inductive EntryKind where
  | absent
  | file
  | dir
  | liveSymlink
  | danglingSymlink
  deriving DecidableEq, Repr

/-- Semantics of `Path::exists()`: it follows symbolic links, so a dangling
symlink reports `false` even though an entry is physically present. -/
def entryExists : EntryKind → Bool
  | .absent => false
  | .file => true
  | .dir => true
  | .liveSymlink => true
  | .danglingSymlink => false

/-- One step of the chunked download stream of main.rs lines 149-155: a
chunk read error, or a chunk of bytes together with the success of the
`write_all` call for that chunk. -/
inductive ChunkStep where
  | readErr
  | chunk (bytes : List Nat) (write_ok : Bool)
  deriving DecidableEq, Repr

/-- Filesystem oracle: for each path, what the OS reports at the moment the
program queries it, plus the outcomes of the two fallible creation calls. -/
structure FS where
  entryAt : String → EntryKind
  mode : String → Nat
  mkdir_ok : Bool
  create_ok : Bool

/-- Reply to the asset download GET (main.rs lines 123-130). -/
structure AssetResponse where
  status : Nat
  content_length : Option Nat
  chunks : List ChunkStep
  deriving Repr

/-- Reply to the latest-release GET (main.rs lines 81-86).  `body` is the
result of `.json()`: `some rel` when the body deserializes as a release,
`none` when deserialization fails.  The source never consults `status`
on this request. -/
structure MetaResponse where
  status : Nat
  body : Option Release
  deriving Repr

/-- Network oracle.  `none` models a failure of `.send()` itself. -/
structure Net where
  metadata : Option MetaResponse
  asset : String → Option AssetResponse

/-- Externally visible actions, recorded in program order. -/
inductive Eff where
  | printHelp
  | print (s : String)
  | createDirAll (dir : String)
  | httpGetMetadata (url : String)
  | httpGetAsset (url : String)
  | progressBar (visible : Bool)
  | fileCreate (path : String)
  | fileWrite (path : String) (bytes : List Nat)
  | setPerms (path : String) (mode : Nat)
  | removeFile (path : String)
  | symlink (target : String) (path : String)
  deriving DecidableEq, Repr

/-- Reasons for a non-zero exit, one per `?` propagation site of main.rs. -/
inductive Err where
  | noHome
  | mkdirFailed
  | sendFailed
  | jsonFailed
  | noMatchingAsset
  | assetSendFailed
  | httpStatus (code : Nat)
  | createFailed
  | readFailed
  | writeFailed
  | removeFailed
  | symlinkCreateFailed
  deriving DecidableEq, Repr

/-- Default install directory (main.rs line 31): `PathBuf::from(HOME)`
joined with the relative path `./Documents/repository/rust-unicorn`. -/
def default_install_dir (home : String) : String :=
  home ++ "/./Documents/repository/rust-unicorn"

/-- Defaults of main.rs lines 31-34. -/
def default_config (home : String) : Config :=
  { install_dir := default_install_dir home
    create_symlink := true
    force_update := false
    quiet := false }

/-- The argument loop of main.rs lines 37-57.  The loop walks the argument
vector one index at a time; the `-d` branch stores the next token as the
install directory but does not advance past it, so that token is examined
again on the next iteration.  A trailing `-d` fails the `i + 1 < len`
guard and falls through to the catch-all.  `--help` returns immediately. -/
def parse_args : List String → Config → ParseResult
  | [], cfg => .proceed cfg
  | arg :: rest, cfg =>
    if (arg = "--install-dir" ∨ arg = "-d") ∧ rest ≠ [] then
      parse_args rest { cfg with install_dir := rest.headD "" }
    else if arg = "--no-symlink" then
      parse_args rest { cfg with create_symlink := false }
    else if arg = "--force" ∨ arg = "-f" then
      parse_args rest { cfg with force_update := true }
    else if arg = "--quiet" ∨ arg = "-q" then
      parse_args rest { cfg with quiet := true }
    else if arg = "--help" ∨ arg = "-h" then
      .help
    else
      parse_args rest cfg

/-- The hardcoded latest-release endpoint of main.rs lines 67-73. -/
def api_url : String :=
  "https://api.github.com/repos/laurent22/joplin/releases/latest"

/-- Directory preparation, main.rs lines 60-65: create the install
directory (with parents) when absent, printing a line unless quiet. -/
def prepare_dir (cfg : Config) (fs : FS) : List Eff × Except Err Unit :=
  if entryExists (fs.entryAt cfg.install_dir) then
    ([], .ok ())
  else if fs.mkdir_ok then
    (Eff.createDirAll cfg.install_dir ::
      (if cfg.quiet then [] else
        [Eff.print ("Created directory: " ++ cfg.install_dir)]),
     .ok ())
  else
    ([Eff.createDirAll cfg.install_dir], .error .mkdirFailed)

/-- The latest-release fetch, main.rs lines 81-86: a GET followed by JSON
deserialization.  Only `.send()` failure and decode failure abort; the
HTTP status of this response is never inspected in the source. -/
def fetch_release (net : Net) : List Eff × Except Err Release :=
  ([Eff.httpGetMetadata api_url],
    match net.metadata with
    | none => .error .sendFailed
    | some r =>
      match r.body with
      | none => .error .jsonFailed
      | some rel => .ok rel)

/-- The case-sensitive suffix test `str::ends_with` of Rust, expressed on
the character sequences of the two strings. -/
def ends_with (s suffix : String) : Bool :=
  suffix.data.isSuffixOf s.data

/-- Asset selection, main.rs lines 89-93: first asset, in input order,
whose name ends with the case-sensitive suffix ".AppImage". -/
def select_asset (rel : Release) : Except Err Asset :=
  match rel.assets.find? (fun a => ends_with a.name ".AppImage") with
  | some a => .ok a
  | none => .error .noMatchingAsset

/-- The target path of main.rs line 95. -/
def install_path (cfg : Config) (a : Asset) : String :=
  cfg.install_dir ++ "/" ++ a.name

/-- The symlink manager `create_joplin_symlink`, main.rs lines 181-193,
together with the POSIX semantics of the standard calls it makes:
`Path::exists()` follows symlinks (a dangling symlink reports absent),
`fs::remove_file` removes files and symlinks but fails on a directory,
and symlink creation fails with EEXIST when any entry, a dangling
symlink included, still occupies the path. -/
def create_joplin_symlink (fs : FS) (install_dir : String)
    (app_image_name : String) : List Eff × Except Err Unit :=
  let symlink_path := install_dir ++ "/joplin"
  if entryExists (fs.entryAt symlink_path) then
    match fs.entryAt symlink_path with
    | .dir => ([], .error .removeFailed)
    | _ =>
      ([Eff.removeFile symlink_path, Eff.symlink app_image_name symlink_path],
       .ok ())
  else
    match fs.entryAt symlink_path with
    | .absent => ([Eff.symlink app_image_name symlink_path], .ok ())
    | _ => ([], .error .symlinkCreateFailed)

/-- The two guarded symlink call sites, main.rs lines 110-112 and 169-171. -/
def symlink_if_enabled (cfg : Config) (fs : FS) (a : Asset) :
    List Eff × Except Err Unit :=
  if cfg.create_symlink then create_joplin_symlink fs cfg.install_dir a.name
  else ([], .ok ())

/-- `total_size`, main.rs line 130: the declared content length with
`unwrap_or(0)`, so an absent length collapses to 0. -/
def total_size (r : AssetResponse) : Nat :=
  r.content_length.getD 0

/-- The progress-bar choice of main.rs lines 133-142: a visible bar exactly
when not quiet and `total_size > 0`, a hidden bar otherwise. -/
def progress_bar_visible (quiet : Bool) (r : AssetResponse) : Bool :=
  !quiet && decide (0 < total_size r)

/-- The chunked download loop of main.rs lines 149-155: each chunk is read
and appended to the file in order; a read error or a failed write aborts
with no retry, keeping the writes made so far. -/
def download_loop (path : String) : List ChunkStep → List Eff × Except Err Unit
  | [] => ([], .ok ())
  | .readErr :: _ => ([], .error .readFailed)
  | .chunk b wok :: rest =>
    if wok then
      (Eff.fileWrite path b :: (download_loop path rest).1,
       (download_loop path rest).2)
    else
      ([], .error .writeFailed)

/-- The downloader, main.rs lines 123-155: GET the asset URL, abort on a
send failure or (via `error_for_status`) a 4xx/5xx status, build the
progress bar, create the destination file, then run the chunk loop. -/
def download_asset (cfg : Config) (fs : FS) (net : Net) (a : Asset)
    (path : String) : List Eff × Except Err Unit :=
  match net.asset a.browser_download_url with
  | none => ([Eff.httpGetAsset a.browser_download_url], .error .assetSendFailed)
  | some r =>
    if 400 ≤ r.status then
      ([Eff.httpGetAsset a.browser_download_url], .error (.httpStatus r.status))
    else if fs.create_ok then
      (Eff.httpGetAsset a.browser_download_url ::
        Eff.progressBar (progress_bar_visible cfg.quiet r) ::
        Eff.fileCreate path :: (download_loop path r.chunks).1,
       (download_loop path r.chunks).2)
    else
      ([Eff.httpGetAsset a.browser_download_url,
        Eff.progressBar (progress_bar_visible cfg.quiet r)],
       .error .createFailed)

/-- The short-circuit branch of main.rs lines 98-115: informational prints
unless quiet, then chmod of the existing file, then the optional symlink. -/
def short_circuit (cfg : Config) (fs : FS) (rel : Release) (a : Asset) :
    List Eff × Except Err Unit :=
  ((if cfg.quiet then [] else
      [Eff.print ("Joplin " ++ rel.tag_name ++ " is already installed at " ++
        install_path cfg a),
       Eff.print "Use --force to reinstall or update."]) ++
    Eff.setPerms (install_path cfg a) (fs.mode (install_path cfg a) ||| 0o755) ::
    (symlink_if_enabled cfg fs a).1,
   (symlink_if_enabled cfg fs a).2)

/-- Closing prints of main.rs lines 173-176. -/
def final_msgs (cfg : Config) (rel : Release) : List Eff :=
  if cfg.quiet then [] else
    [Eff.print ("Joplin " ++ rel.tag_name ++ " has been successfully installed!"),
     Eff.print "You can run it by typing joplin in your terminal."]

/-- Pre-download prints of main.rs lines 117-120. -/
def found_msgs (cfg : Config) (rel : Release) (a : Asset) : List Eff :=
  if cfg.quiet then [] else
    [Eff.print ("Found Joplin " ++ rel.tag_name ++ " (" ++ a.name ++ ")"),
     Eff.print ("Downloading to " ++ install_path cfg a ++ "...")]

/-- The fresh-download tail of main, lines 117-178: download, chmod the new
file (adding 0o755 to the mode the OS reports for it), print, optional
symlink, final prints. -/
def fresh_install (cfg : Config) (fs : FS) (net : Net) (rel : Release)
    (a : Asset) : List Eff × Except Err Unit :=
  match (download_asset cfg fs net a (install_path cfg a)).2 with
  | .error e =>
    (found_msgs cfg rel a ++ (download_asset cfg fs net a (install_path cfg a)).1,
     .error e)
  | .ok _ =>
    match (symlink_if_enabled cfg fs a).2 with
    | .error e =>
      (found_msgs cfg rel a ++
        (download_asset cfg fs net a (install_path cfg a)).1 ++
        Eff.setPerms (install_path cfg a)
          (fs.mode (install_path cfg a) ||| 0o755) ::
        (if cfg.quiet then [] else
          [Eff.print ("Downloaded and made executable: " ++ install_path cfg a)]) ++
        (symlink_if_enabled cfg fs a).1,
       .error e)
    | .ok _ =>
      (found_msgs cfg rel a ++
        (download_asset cfg fs net a (install_path cfg a)).1 ++
        Eff.setPerms (install_path cfg a)
          (fs.mode (install_path cfg a) ||| 0o755) ::
        (if cfg.quiet then [] else
          [Eff.print ("Downloaded and made executable: " ++ install_path cfg a)]) ++
        (symlink_if_enabled cfg fs a).1 ++ final_msgs cfg rel,
       .ok ())

/-- The install-state check of main.rs line 98: `install_path.exists() &&
!force_update` short-circuits, otherwise the fresh download runs. -/
def run_install (cfg : Config) (fs : FS) (net : Net) (rel : Release)
    (a : Asset) : List Eff × Except Err Unit :=
  if entryExists (fs.entryAt (install_path cfg a)) && !cfg.force_update then
    short_circuit cfg fs rel a
  else
    fresh_install cfg fs net rel a

/-- Release fetch, asset selection and the install tail, main.rs 81-178. -/
def run_release (cfg : Config) (fs : FS) (net : Net) :
    List Eff × Except Err Unit :=
  match (fetch_release net).2 with
  | .error e => ((fetch_release net).1, .error e)
  | .ok rel =>
    match select_asset rel with
    | .error e => ((fetch_release net).1, .error e)
    | .ok a =>
      ((fetch_release net).1 ++ (run_install cfg fs net rel a).1,
       (run_install cfg fs net rel a).2)

/-- The whole of `main` (main.rs lines 27-179).  `HOME` is read first
(line 31), so a missing `HOME` aborts before the argument loop runs; the
argument loop then walks `args[1..]`, and a `--help` token ends the run
with only the usage text printed. -/
def run (home : Option String) (argv : List String) (fs : FS) (net : Net) :
    List Eff × Except Err Unit :=
  match home with
  | none => ([], .error .noHome)
  | some h =>
    match parse_args (argv.drop 1) (default_config h) with
    | .help => ([Eff.printHelp], .ok ())
    | .proceed cfg =>
      match (prepare_dir cfg fs).2 with
      | .error e => ((prepare_dir cfg fs).1, .error e)
      | .ok _ =>
        ((prepare_dir cfg fs).1 ++ (run_release cfg fs net).1,
         (run_release cfg fs net).2)

/-- Bytes that the trace writes to `path`, in order: the on-disk content
of the file the download produced. -/
def writesTo (path : String) : List Eff → List Nat
  | [] => []
  | e :: rest =>
    match e with
    | Eff.fileWrite p b =>
      if p = path then b ++ writesTo path rest else writesTo path rest
    | _ => writesTo path rest

/-- Bytes carried by one chunk step. -/
def chunk_bytes : ChunkStep → List Nat
  | .readErr => []
  | .chunk b _ => b

/-! ## Concrete worlds used by witnesses and counterexamples -/

/-- A world with an empty filesystem and a dead network. -/
def fs0 : FS := ⟨fun _ => .absent, fun _ => 0, true, true⟩

/-- A network oracle on which every request fails to send. -/
def net0 : Net := ⟨none, fun _ => none⟩

/-- A one-asset release whose only asset matches the AppImage suffix. -/
def rel1 : Release := ⟨"v1", [⟨"a.AppImage", "u"⟩]⟩

/-! ## Argument-parser lemmas -/

lemma parse_args_install_dir_take (flag v : String) (rest : List String)
    (cfg : Config) (h : flag = "--install-dir" ∨ flag = "-d") :
    parse_args (flag :: v :: rest) cfg =
      parse_args (v :: rest) { cfg with install_dir := v } := by
  rcases h with rfl | rfl <;> rfl

lemma parse_args_install_dir_trailing (flag : String) (cfg : Config)
    (h : flag = "--install-dir" ∨ flag = "-d") :
    parse_args [flag] cfg = .proceed cfg := by
  rcases h with rfl | rfl <;> rfl

lemma parse_args_no_symlink (rest : List String) (cfg : Config) :
    parse_args ("--no-symlink" :: rest) cfg =
      parse_args rest { cfg with create_symlink := false } := rfl

lemma parse_args_force (flag : String) (rest : List String) (cfg : Config)
    (h : flag = "--force" ∨ flag = "-f") :
    parse_args (flag :: rest) cfg =
      parse_args rest { cfg with force_update := true } := by
  rcases h with rfl | rfl <;> rfl

lemma parse_args_quiet (flag : String) (rest : List String) (cfg : Config)
    (h : flag = "--quiet" ∨ flag = "-q") :
    parse_args (flag :: rest) cfg =
      parse_args rest { cfg with quiet := true } := by
  rcases h with rfl | rfl <;> rfl

lemma parse_args_help_head (flag : String) (rest : List String) (cfg : Config)
    (h : flag = "--help" ∨ flag = "-h") :
    parse_args (flag :: rest) cfg = .help := by
  rcases h with rfl | rfl <;> rfl

lemma parse_args_other (t : String) (rest : List String) (cfg : Config)
    (h : t ∉ (["--install-dir", "-d", "--no-symlink", "--force", "-f",
               "--quiet", "-q", "--help", "-h"] : List String)) :
    parse_args (t :: rest) cfg = parse_args rest cfg := by
  simp only [List.mem_cons, List.not_mem_nil, or_false, not_or] at h
  obtain ⟨h1, h2, h3, h4, h5, h6, h7, h8, h9⟩ := h
  rw [parse_args.eq_2]
  rw [if_neg (by rintro ⟨h' | h', -⟩ <;> [exact h1 h'; exact h2 h']),
    if_neg h3, if_neg (by rintro (h' | h') <;> [exact h4 h'; exact h5 h']),
    if_neg (by rintro (h' | h') <;> [exact h6 h'; exact h7 h']),
    if_neg (by rintro (h' | h') <;> [exact h8 h'; exact h9 h'])]

lemma parse_args_step_not_help (t : String) (rest : List String) (cfg : Config)
    (ht : ¬ (t = "--help" ∨ t = "-h")) :
    ∃ cfg', parse_args (t :: rest) cfg = parse_args rest cfg' := by
  rw [parse_args.eq_2]
  by_cases h1 : (t = "--install-dir" ∨ t = "-d") ∧ rest ≠ []
  · rw [if_pos h1]; exact ⟨_, rfl⟩
  · rw [if_neg h1]
    by_cases h2 : t = "--no-symlink"
    · rw [if_pos h2]; exact ⟨_, rfl⟩
    · rw [if_neg h2]
      by_cases h3 : t = "--force" ∨ t = "-f"
      · rw [if_pos h3]; exact ⟨_, rfl⟩
      · rw [if_neg h3]
        by_cases h4 : t = "--quiet" ∨ t = "-q"
        · rw [if_pos h4]; exact ⟨_, rfl⟩
        · rw [if_neg h4, if_neg ht]; exact ⟨_, rfl⟩

/-- A `--help` or `-h` token anywhere in the argument list makes the loop
return `.help`, whatever is around it. -/
lemma parse_args_help_mem (l : List String) :
    ∀ cfg : Config, ("--help" ∈ l ∨ "-h" ∈ l) → parse_args l cfg = .help := by
  induction l with
  | nil => intro cfg h; simp at h
  | cons t rest ih =>
    intro cfg h
    by_cases ht : t = "--help" ∨ t = "-h"
    · exact parse_args_help_head t rest cfg ht
    · have hrest : "--help" ∈ rest ∨ "-h" ∈ rest := by
        rcases h with h | h
        · rcases List.mem_cons.mp h with h' | h'
          · exact absurd (Or.inl h'.symm) ht
          · exact Or.inl h'
        · rcases List.mem_cons.mp h with h' | h'
          · exact absurd (Or.inr h'.symm) ht
          · exact Or.inr h'
      obtain ⟨cfg', hstep⟩ := parse_args_step_not_help t rest cfg ht
      rw [hstep]
      exact ih cfg' hrest

/-! ## Claim C1 -/

/-- C1: whenever the token `--help` or `-h` appears anywhere among the
arguments (everything after the program name), the run prints the usage
text and exits 0, and its whole effect trace is that single print: no
filesystem and no network action is performed, regardless of what other
flags are present. -/
theorem help_flag_short_circuits (h : String) (argv : List String) (fs : FS)
    (net : Net) (hh : "--help" ∈ argv.drop 1 ∨ "-h" ∈ argv.drop 1) :
    run (some h) argv fs net = ([Eff.printHelp], .ok ()) := by
  simp only [run, parse_args_help_mem (argv.drop 1) (default_config h) hh]

/-- Witness for C1 at a concrete argument list that mixes `--help` with
other flags, an install-dir override included. -/
theorem help_flag_short_circuits_witness :
    ("--help" ∈ (["prog", "-d", "/x", "--force", "--help", "-q"] : List String).drop 1 ∨
      "-h" ∈ (["prog", "-d", "/x", "--force", "--help", "-q"] : List String).drop 1) ∧
    run (some "/h") ["prog", "-d", "/x", "--force", "--help", "-q"] fs0 net0 =
      ([Eff.printHelp], .ok ()) :=
  ⟨by decide, help_flag_short_circuits "/h" _ fs0 net0 (by decide)⟩

/-! ## Claim C5 -/

/-- C5: the argument loop recognizes exactly `-d`/`--install-dir` (which
takes the next token as its value and is silently ignored when it is the
last token), `--no-symlink`, `-f`/`--force`, `-q`/`--quiet` and
`-h`/`--help`; every other token is silently ignored, and the parser can
never fail: it always produces either the help request or a config. -/
theorem parser_recognizes_exactly_these_flags :
    (∀ (cfg : Config) (flag v : String) (rest : List String),
      (flag = "--install-dir" ∨ flag = "-d") →
      parse_args (flag :: v :: rest) cfg =
        parse_args (v :: rest) { cfg with install_dir := v }) ∧
    (∀ (cfg : Config) (flag : String), (flag = "--install-dir" ∨ flag = "-d") →
      parse_args [flag] cfg = .proceed cfg) ∧
    (∀ (cfg : Config) (rest : List String),
      parse_args ("--no-symlink" :: rest) cfg =
        parse_args rest { cfg with create_symlink := false }) ∧
    (∀ (cfg : Config) (flag : String) (rest : List String),
      (flag = "--force" ∨ flag = "-f") →
      parse_args (flag :: rest) cfg =
        parse_args rest { cfg with force_update := true }) ∧
    (∀ (cfg : Config) (flag : String) (rest : List String),
      (flag = "--quiet" ∨ flag = "-q") →
      parse_args (flag :: rest) cfg =
        parse_args rest { cfg with quiet := true }) ∧
    (∀ (cfg : Config) (flag : String) (rest : List String),
      (flag = "--help" ∨ flag = "-h") →
      parse_args (flag :: rest) cfg = .help) ∧
    (∀ (cfg : Config) (t : String) (rest : List String),
      t ∉ (["--install-dir", "-d", "--no-symlink", "--force", "-f",
            "--quiet", "-q", "--help", "-h"] : List String) →
      parse_args (t :: rest) cfg = parse_args rest cfg) ∧
    (∀ (cfg : Config) (args : List String),
      parse_args args cfg = .help ∨ ∃ cfg', parse_args args cfg = .proceed cfg') := by
  refine ⟨?_, ?_, ?_, ?_, ?_, ?_, ?_, ?_⟩
  · intro cfg flag v rest h; exact parse_args_install_dir_take flag v rest cfg h
  · intro cfg flag h; exact parse_args_install_dir_trailing flag cfg h
  · intro cfg rest; exact parse_args_no_symlink rest cfg
  · intro cfg flag rest h; exact parse_args_force flag rest cfg h
  · intro cfg flag rest h; exact parse_args_quiet flag rest cfg h
  · intro cfg flag rest h; exact parse_args_help_head flag rest cfg h
  · intro cfg t rest h; exact parse_args_other t rest cfg h
  · intro cfg args
    cases hr : parse_args args cfg with
    | help => exact Or.inl rfl
    | proceed c => exact Or.inr ⟨c, rfl⟩

/-- Witness for C5 at concrete tokens: an unrecognized token is skipped,
a trailing `-d` is dropped, and a full mixed command line parses to the
expected configuration with no error. -/
theorem parser_recognizes_exactly_these_flags_witness :
    (("--bogus" : String) ∉ (["--install-dir", "-d", "--no-symlink", "--force",
        "-f", "--quiet", "-q", "--help", "-h"] : List String)) ∧
    parse_args ["--bogus"] (default_config "/h") =
      .proceed (default_config "/h") ∧
    parse_args ["-d", "/x", "--bogus", "--no-symlink", "-q", "-d"]
        (default_config "/h") =
      .proceed { install_dir := "/x", create_symlink := false,
                 force_update := false, quiet := true } :=
  ⟨by decide,
   (parser_recognizes_exactly_these_flags.2.2.2.2.2.2.1
      (default_config "/h") "--bogus" [] (by decide)).trans rfl,
   by
    rw [parser_recognizes_exactly_these_flags.1 (default_config "/h") "-d" "/x" _
      (Or.inr rfl)]
    rfl⟩

/-! ## Symlink-manager lemmas -/

lemma create_joplin_symlink_removable (fs : FS) (d n : String)
    (h : fs.entryAt (d ++ "/joplin") = .file ∨
         fs.entryAt (d ++ "/joplin") = .liveSymlink) :
    create_joplin_symlink fs d n =
      ([Eff.removeFile (d ++ "/joplin"), Eff.symlink n (d ++ "/joplin")],
       .ok ()) := by
  rcases h with h | h <;> simp [create_joplin_symlink, h, entryExists]

lemma create_joplin_symlink_absent (fs : FS) (d n : String)
    (h : fs.entryAt (d ++ "/joplin") = .absent) :
    create_joplin_symlink fs d n =
      ([Eff.symlink n (d ++ "/joplin")], .ok ()) := by
  simp [create_joplin_symlink, h, entryExists]

lemma create_joplin_symlink_dir (fs : FS) (d n : String)
    (h : fs.entryAt (d ++ "/joplin") = .dir) :
    create_joplin_symlink fs d n = ([], .error .removeFailed) := by
  simp [create_joplin_symlink, h, entryExists]

lemma create_joplin_symlink_dangling (fs : FS) (d n : String)
    (h : fs.entryAt (d ++ "/joplin") = .danglingSymlink) :
    create_joplin_symlink fs d n = ([], .error .symlinkCreateFailed) := by
  simp [create_joplin_symlink, h, entryExists]

/-! ## Claim C4 -/

/-- C4 as stated is refuted by a pre-existing directory at
`installDir/joplin`: a directory is an entry the invoking user may delete,
yet `fs::remove_file` fails on it, so the symlink manager aborts with an
error, deletes nothing and creates no symlink. -/
theorem symlink_over_directory_fails :
    (FS.mk (fun _ => .dir) (fun _ => 0) true true).entryAt "/i/joplin" = .dir ∧
    create_joplin_symlink (FS.mk (fun _ => .dir) (fun _ => 0) true true)
        "/i" "a.AppImage" = ([], .error .removeFailed) :=
  ⟨rfl, rfl⟩

/-- C4 amended: when `Path::exists` reports an entry at
`installDir/joplin` — true for a regular file, a directory and a live
symlink, but false for a dangling symlink — the entry is removed first and
the symlink is then created with the bare asset filename (a relative name)
as its target; the operation succeeds when the pre-existing entry is
absent, a regular file or a live symlink, and fails when it is a directory
(removal fails) or a dangling symlink (not removed, creation hits the
existing entry). -/
theorem symlink_manager_characterization (fs : FS) (d n : String) :
    (fs.entryAt (d ++ "/joplin") = .file ∨
        fs.entryAt (d ++ "/joplin") = .liveSymlink →
      create_joplin_symlink fs d n =
        ([Eff.removeFile (d ++ "/joplin"), Eff.symlink n (d ++ "/joplin")],
         .ok ())) ∧
    (fs.entryAt (d ++ "/joplin") = .absent →
      create_joplin_symlink fs d n =
        ([Eff.symlink n (d ++ "/joplin")], .ok ())) ∧
    (fs.entryAt (d ++ "/joplin") = .dir →
      create_joplin_symlink fs d n = ([], .error .removeFailed)) ∧
    (fs.entryAt (d ++ "/joplin") = .danglingSymlink →
      create_joplin_symlink fs d n = ([], .error .symlinkCreateFailed)) :=
  ⟨create_joplin_symlink_removable fs d n,
   create_joplin_symlink_absent fs d n,
   create_joplin_symlink_dir fs d n,
   create_joplin_symlink_dangling fs d n⟩

/-- Witness for C4 amended at a concrete filesystem holding a regular file
at the symlink path: the file is removed and the relative symlink
created. -/
theorem symlink_manager_characterization_witness :
    (FS.mk (fun _ => .file) (fun _ => 0) true true).entryAt "/i/joplin" = .file ∧
    create_joplin_symlink (FS.mk (fun _ => .file) (fun _ => 0) true true)
        "/i" "a.AppImage" =
      ([Eff.removeFile "/i/joplin", Eff.symlink "a.AppImage" "/i/joplin"],
       .ok ()) :=
  ⟨rfl,
   (symlink_manager_characterization
      (FS.mk (fun _ => .file) (fun _ => 0) true true) "/i" "a.AppImage").1
     (Or.inl rfl)⟩

/-! ## Claim C9 -/

/-- C9: the progress indicator is rendered exactly when quiet mode is off
and the response declares a positive total length; a declared length of 0
or an absent length is treated as unknown and the indicator is hidden.
The last conjunct ties the rendered flag to the download pipeline: the
bar built by the downloader is exactly this one. -/
theorem progress_bar_visible_iff :
    (∀ (q : Bool) (r : AssetResponse),
      progress_bar_visible q r = true ↔
        (q = false ∧ ∃ n, r.content_length = some n ∧ 0 < n)) ∧
    (∀ (q : Bool) (r : AssetResponse),
      r.content_length = none → progress_bar_visible q r = false) ∧
    (∀ (q : Bool) (r : AssetResponse),
      r.content_length = some 0 → progress_bar_visible q r = false) ∧
    (∀ (cfg : Config) (fs : FS) (net : Net) (a : Asset) (path : String)
        (r : AssetResponse),
      net.asset a.browser_download_url = some r → r.status < 400 →
      Eff.progressBar (progress_bar_visible cfg.quiet r) ∈
        (download_asset cfg fs net a path).1) := by
  refine ⟨?_, ?_, ?_, ?_⟩
  · intro q r
    cases q <;> cases hc : r.content_length with
    | none => simp [progress_bar_visible, total_size, hc]
    | some n =>
      simp only [progress_bar_visible, total_size, hc, Option.getD_some]
      cases n <;> simp
  · intro q r hc; simp [progress_bar_visible, total_size, hc]
  · intro q r hc; simp [progress_bar_visible, total_size, hc]
  · intro cfg fs net a path r hr hst
    simp only [download_asset, hr]
    rw [if_neg (by omega)]
    by_cases hc : fs.create_ok <;> simp [hc]

/-- Witness for C9 at concrete responses: length 10 renders the bar when
not quiet, length 0 and absent length hide it, and the downloader emits
the corresponding bar effect. -/
theorem progress_bar_visible_iff_witness :
    progress_bar_visible false ⟨200, some 10, []⟩ = true ∧
    progress_bar_visible false ⟨200, some 0, []⟩ = false ∧
    progress_bar_visible false ⟨200, none, []⟩ = false ∧
    progress_bar_visible true ⟨200, some 10, []⟩ = false ∧
    Eff.progressBar (progress_bar_visible false ⟨200, some 10, []⟩) ∈
      (download_asset (default_config "/h") fs0
        (Net.mk none (fun _ => some ⟨200, some 10, []⟩)) ⟨"a.AppImage", "u"⟩
        "/i/a.AppImage").1 :=
  ⟨by decide, by decide, by decide, by decide,
   progress_bar_visible_iff.2.2.2 (default_config "/h") fs0
     (Net.mk none (fun _ => some ⟨200, some 10, []⟩)) ⟨"a.AppImage", "u"⟩
     "/i/a.AppImage" ⟨200, some 10, []⟩ rfl (by decide)⟩

/-! ## Branch equations for the pipeline -/

lemma prepare_dir_exists_eq (cfg : Config) (fs : FS)
    (h : entryExists (fs.entryAt cfg.install_dir) = true) :
    prepare_dir cfg fs = ([], .ok ()) := by
  simp [prepare_dir, h]

lemma prepare_dir_created_eq (cfg : Config) (fs : FS)
    (h1 : entryExists (fs.entryAt cfg.install_dir) = false)
    (h2 : fs.mkdir_ok = true) :
    prepare_dir cfg fs =
      (Eff.createDirAll cfg.install_dir ::
        (if cfg.quiet then [] else
          [Eff.print ("Created directory: " ++ cfg.install_dir)]),
       .ok ()) := by
  simp [prepare_dir, h1, h2]

lemma prepare_dir_snd_cases (cfg : Config) (fs : FS) :
    (prepare_dir cfg fs).2 = .ok () ∨
    (prepare_dir cfg fs).2 = .error .mkdirFailed := by
  unfold prepare_dir
  split_ifs <;> simp

lemma fetch_release_fst (net : Net) :
    (fetch_release net).1 = [Eff.httpGetMetadata api_url] := rfl

lemma fetch_release_ok (net : Net) (mr : MetaResponse) (rel : Release)
    (h : net.metadata = some mr) (hb : mr.body = some rel) :
    (fetch_release net).2 = .ok rel := by
  simp [fetch_release, h, hb]

lemma fetch_release_send_failed (net : Net) (h : net.metadata = none) :
    (fetch_release net).2 = .error .sendFailed := by
  simp [fetch_release, h]

lemma fetch_release_json_failed (net : Net) (mr : MetaResponse)
    (h : net.metadata = some mr) (hb : mr.body = none) :
    (fetch_release net).2 = .error .jsonFailed := by
  simp [fetch_release, h, hb]

lemma run_proceed_eq (h : String) (argv : List String) (fs : FS) (net : Net)
    (cfg : Config)
    (hp : parse_args (argv.drop 1) (default_config h) = .proceed cfg)
    (hd : (prepare_dir cfg fs).2 = .ok ()) :
    run (some h) argv fs net =
      ((prepare_dir cfg fs).1 ++ (run_release cfg fs net).1,
       (run_release cfg fs net).2) := by
  simp only [run, hp, hd]

lemma run_release_fetch_err (cfg : Config) (fs : FS) (net : Net) (err : Err)
    (h : (fetch_release net).2 = .error err) :
    run_release cfg fs net = ([Eff.httpGetMetadata api_url], .error err) := by
  simp only [run_release, h]
  rfl

lemma run_release_sel_err (cfg : Config) (fs : FS) (net : Net) (rel : Release)
    (err : Err) (h : (fetch_release net).2 = .ok rel)
    (hs : select_asset rel = .error err) :
    run_release cfg fs net = ([Eff.httpGetMetadata api_url], .error err) := by
  simp only [run_release, h, hs]
  rfl

lemma run_release_ok (cfg : Config) (fs : FS) (net : Net) (rel : Release)
    (a : Asset) (h : (fetch_release net).2 = .ok rel)
    (hs : select_asset rel = .ok a) :
    run_release cfg fs net =
      (Eff.httpGetMetadata api_url :: (run_install cfg fs net rel a).1,
       (run_install cfg fs net rel a).2) := by
  simp only [run_release, h, hs, fetch_release_fst, List.singleton_append]

lemma run_install_short_eq (cfg : Config) (fs : FS) (net : Net) (rel : Release)
    (a : Asset) (he : entryExists (fs.entryAt (install_path cfg a)) = true)
    (hf : cfg.force_update = false) :
    run_install cfg fs net rel a = short_circuit cfg fs rel a := by
  simp [run_install, he, hf]

lemma run_install_fresh_eq (cfg : Config) (fs : FS) (net : Net) (rel : Release)
    (a : Asset)
    (h : (entryExists (fs.entryAt (install_path cfg a)) && !cfg.force_update) = false) :
    run_install cfg fs net rel a = fresh_install cfg fs net rel a := by
  simp only [run_install, h, Bool.false_eq_true, if_false]

lemma download_asset_send_failed (cfg : Config) (fs : FS) (net : Net)
    (a : Asset) (path : String) (h : net.asset a.browser_download_url = none) :
    download_asset cfg fs net a path =
      ([Eff.httpGetAsset a.browser_download_url], .error .assetSendFailed) := by
  simp only [download_asset, h]

lemma download_asset_status_err (cfg : Config) (fs : FS) (net : Net)
    (a : Asset) (path : String) (r : AssetResponse)
    (h : net.asset a.browser_download_url = some r) (hst : 400 ≤ r.status) :
    download_asset cfg fs net a path =
      ([Eff.httpGetAsset a.browser_download_url],
       .error (.httpStatus r.status)) := by
  simp only [download_asset, h, if_pos hst]

lemma download_asset_streaming (cfg : Config) (fs : FS) (net : Net)
    (a : Asset) (path : String) (r : AssetResponse)
    (h : net.asset a.browser_download_url = some r) (hst : ¬ 400 ≤ r.status)
    (hc : fs.create_ok = true) :
    download_asset cfg fs net a path =
      (Eff.httpGetAsset a.browser_download_url ::
        Eff.progressBar (progress_bar_visible cfg.quiet r) ::
        Eff.fileCreate path :: (download_loop path r.chunks).1,
       (download_loop path r.chunks).2) := by
  simp only [download_asset, h, if_neg hst, hc, if_true]

lemma download_asset_create_failed (cfg : Config) (fs : FS) (net : Net)
    (a : Asset) (path : String) (r : AssetResponse)
    (h : net.asset a.browser_download_url = some r) (hst : ¬ 400 ≤ r.status)
    (hc : fs.create_ok = false) :
    download_asset cfg fs net a path =
      ([Eff.httpGetAsset a.browser_download_url,
        Eff.progressBar (progress_bar_visible cfg.quiet r)],
       .error .createFailed) := by
  simp only [download_asset, h, if_neg hst, hc, Bool.false_eq_true, if_false]

lemma fresh_install_download_err (cfg : Config) (fs : FS) (net : Net)
    (rel : Release) (a : Asset) (err : Err)
    (h : (download_asset cfg fs net a (install_path cfg a)).2 = .error err) :
    fresh_install cfg fs net rel a =
      (found_msgs cfg rel a ++ (download_asset cfg fs net a (install_path cfg a)).1,
       .error err) := by
  simp only [fresh_install, h]

lemma fresh_install_sym_err (cfg : Config) (fs : FS) (net : Net)
    (rel : Release) (a : Asset) (err : Err)
    (hda : (download_asset cfg fs net a (install_path cfg a)).2 = .ok ())
    (hcs : (symlink_if_enabled cfg fs a).2 = .error err) :
    fresh_install cfg fs net rel a =
      (found_msgs cfg rel a ++
        (download_asset cfg fs net a (install_path cfg a)).1 ++
        Eff.setPerms (install_path cfg a)
          (fs.mode (install_path cfg a) ||| 0o755) ::
        (if cfg.quiet then [] else
          [Eff.print ("Downloaded and made executable: " ++ install_path cfg a)]) ++
        (symlink_if_enabled cfg fs a).1,
       .error err) := by
  simp only [fresh_install, hda, hcs]

lemma fresh_install_ok (cfg : Config) (fs : FS) (net : Net)
    (rel : Release) (a : Asset)
    (hda : (download_asset cfg fs net a (install_path cfg a)).2 = .ok ())
    (hcs : (symlink_if_enabled cfg fs a).2 = .ok ()) :
    fresh_install cfg fs net rel a =
      (found_msgs cfg rel a ++
        (download_asset cfg fs net a (install_path cfg a)).1 ++
        Eff.setPerms (install_path cfg a)
          (fs.mode (install_path cfg a) ||| 0o755) ::
        (if cfg.quiet then [] else
          [Eff.print ("Downloaded and made executable: " ++ install_path cfg a)]) ++
        (symlink_if_enabled cfg fs a).1 ++ final_msgs cfg rel,
       .ok ()) := by
  simp only [fresh_install, hda, hcs]

/-! ## Trace-shape lemmas -/

lemma prepare_dir_cases (cfg : Config) (fs : FS) :
    prepare_dir cfg fs = ([], .ok ()) ∨
    prepare_dir cfg fs =
      (Eff.createDirAll cfg.install_dir ::
        (if cfg.quiet then [] else
          [Eff.print ("Created directory: " ++ cfg.install_dir)]),
       .ok ()) ∨
    prepare_dir cfg fs =
      ([Eff.createDirAll cfg.install_dir], .error .mkdirFailed) := by
  cases h1 : entryExists (fs.entryAt cfg.install_dir) with
  | true => exact Or.inl (prepare_dir_exists_eq cfg fs h1)
  | false =>
    cases h2 : fs.mkdir_ok with
    | true => exact Or.inr (Or.inl (prepare_dir_created_eq cfg fs h1 h2))
    | false =>
      refine Or.inr (Or.inr ?_)
      simp [prepare_dir, h1, h2]

lemma mem_prepare_dir (cfg : Config) (fs : FS) (e : Eff)
    (he : e ∈ (prepare_dir cfg fs).1) :
    e = Eff.createDirAll cfg.install_dir ∨
    e = Eff.print ("Created directory: " ++ cfg.install_dir) := by
  rcases prepare_dir_cases cfg fs with hpd | hpd | hpd <;> rw [hpd] at he
  · simp at he
  · rcases List.mem_cons.mp he with rfl | he'
    · exact Or.inl rfl
    · by_cases hq : cfg.quiet
      · rw [if_pos hq] at he'; simp at he'
      · rw [if_neg hq] at he'
        simp at he'
        exact Or.inr he'
  · simp at he
    exact Or.inl he

lemma mem_found_msgs (cfg : Config) (rel : Release) (a : Asset) (e : Eff)
    (he : e ∈ found_msgs cfg rel a) : ∃ s, e = Eff.print s := by
  unfold found_msgs at he
  by_cases hq : cfg.quiet
  · rw [if_pos hq] at he; simp at he
  · rw [if_neg hq] at he
    rcases List.mem_cons.mp he with rfl | he'
    · exact ⟨_, rfl⟩
    · simp at he'
      exact ⟨_, he'⟩

lemma mem_final_msgs (cfg : Config) (rel : Release) (e : Eff)
    (he : e ∈ final_msgs cfg rel) : ∃ s, e = Eff.print s := by
  unfold final_msgs at he
  by_cases hq : cfg.quiet
  · rw [if_pos hq] at he; simp at he
  · rw [if_neg hq] at he
    rcases List.mem_cons.mp he with rfl | he'
    · exact ⟨_, rfl⟩
    · simp at he'
      exact ⟨_, he'⟩

lemma mem_create_joplin_symlink (fs : FS) (d n : String) (e : Eff)
    (he : e ∈ (create_joplin_symlink fs d n).1) :
    e = Eff.removeFile (d ++ "/joplin") ∨ e = Eff.symlink n (d ++ "/joplin") := by
  cases hk : fs.entryAt (d ++ "/joplin") with
  | absent =>
    rw [create_joplin_symlink_absent fs d n hk] at he
    simp at he
    exact Or.inr he
  | file =>
    rw [create_joplin_symlink_removable fs d n (Or.inl hk)] at he
    simp at he
    rcases he with rfl | rfl
    · exact Or.inl rfl
    · exact Or.inr rfl
  | dir =>
    rw [create_joplin_symlink_dir fs d n hk] at he
    simp at he
  | liveSymlink =>
    rw [create_joplin_symlink_removable fs d n (Or.inr hk)] at he
    simp at he
    rcases he with rfl | rfl
    · exact Or.inl rfl
    · exact Or.inr rfl
  | danglingSymlink =>
    rw [create_joplin_symlink_dangling fs d n hk] at he
    simp at he

lemma mem_symlink_if_enabled (cfg : Config) (fs : FS) (a : Asset) (e : Eff)
    (he : e ∈ (symlink_if_enabled cfg fs a).1) :
    e = Eff.removeFile (cfg.install_dir ++ "/joplin") ∨
    e = Eff.symlink a.name (cfg.install_dir ++ "/joplin") := by
  unfold symlink_if_enabled at he
  by_cases hc : cfg.create_symlink
  · rw [if_pos hc] at he
    exact mem_create_joplin_symlink fs cfg.install_dir a.name e he
  · rw [if_neg hc] at he
    simp at he

lemma mem_download_loop (path : String) (e : Eff) :
    ∀ steps : List ChunkStep, e ∈ (download_loop path steps).1 →
      ∃ b, e = Eff.fileWrite path b := by
  intro steps
  induction steps with
  | nil => intro he; simp [download_loop] at he
  | cons s rest ih =>
    intro he
    cases s with
    | readErr => simp [download_loop] at he
    | chunk b wok =>
      cases wok with
      | true =>
        simp only [download_loop, if_true] at he
        rcases List.mem_cons.mp he with rfl | he'
        · exact ⟨b, rfl⟩
        · exact ih he'
      | false => simp [download_loop] at he

lemma mem_download_asset (cfg : Config) (fs : FS) (net : Net) (a : Asset)
    (path : String) (e : Eff) (he : e ∈ (download_asset cfg fs net a path).1) :
    e = Eff.httpGetAsset a.browser_download_url ∨
    (∃ v, e = Eff.progressBar v) ∨ e = Eff.fileCreate path ∨
    ∃ b, e = Eff.fileWrite path b := by
  cases hr : net.asset a.browser_download_url with
  | none =>
    rw [download_asset_send_failed cfg fs net a path hr] at he
    simp at he
    exact Or.inl he
  | some r =>
    by_cases hst : 400 ≤ r.status
    · rw [download_asset_status_err cfg fs net a path r hr hst] at he
      simp at he
      exact Or.inl he
    · cases hc : fs.create_ok with
      | true =>
        rw [download_asset_streaming cfg fs net a path r hr hst hc] at he
        rcases List.mem_cons.mp he with rfl | he'
        · exact Or.inl rfl
        · rcases List.mem_cons.mp he' with rfl | he''
          · exact Or.inr (Or.inl ⟨_, rfl⟩)
          · rcases List.mem_cons.mp he'' with rfl | he3
            · exact Or.inr (Or.inr (Or.inl rfl))
            · exact Or.inr (Or.inr (Or.inr (mem_download_loop path e r.chunks he3)))
      | false =>
        rw [download_asset_create_failed cfg fs net a path r hr hst hc] at he
        simp at he
        rcases he with rfl | rfl
        · exact Or.inl rfl
        · exact Or.inr (Or.inl ⟨_, rfl⟩)

lemma mem_short_circuit (cfg : Config) (fs : FS) (rel : Release) (a : Asset)
    (e : Eff) (he : e ∈ (short_circuit cfg fs rel a).1) :
    (∃ s, e = Eff.print s) ∨
    e = Eff.setPerms (install_path cfg a) (fs.mode (install_path cfg a) ||| 0o755) ∨
    e = Eff.removeFile (cfg.install_dir ++ "/joplin") ∨
    e = Eff.symlink a.name (cfg.install_dir ++ "/joplin") := by
  unfold short_circuit at he
  rcases List.mem_append.mp he with he' | he'
  · by_cases hq : cfg.quiet
    · rw [if_pos hq] at he'; simp at he'
    · rw [if_neg hq] at he'
      rcases List.mem_cons.mp he' with rfl | he''
      · exact Or.inl ⟨_, rfl⟩
      · simp at he''
        exact Or.inl ⟨_, he''⟩
  · rcases List.mem_cons.mp he' with rfl | he''
    · exact Or.inr (Or.inl rfl)
    · rcases mem_symlink_if_enabled cfg fs a e he'' with h | h
      · exact Or.inr (Or.inr (Or.inl h))
      · exact Or.inr (Or.inr (Or.inr h))

lemma mem_fresh_install (cfg : Config) (fs : FS) (net : Net) (rel : Release)
    (a : Asset) (e : Eff) (he : e ∈ (fresh_install cfg fs net rel a).1) :
    (∃ s, e = Eff.print s) ∨
    e ∈ (download_asset cfg fs net a (install_path cfg a)).1 ∨
    e = Eff.setPerms (install_path cfg a) (fs.mode (install_path cfg a) ||| 0o755) ∨
    e = Eff.removeFile (cfg.install_dir ++ "/joplin") ∨
    e = Eff.symlink a.name (cfg.install_dir ++ "/joplin") := by
  cases hda : (download_asset cfg fs net a (install_path cfg a)).2 with
  | error err =>
    rw [fresh_install_download_err cfg fs net rel a err hda] at he
    rcases List.mem_append.mp he with he' | he'
    · exact Or.inl (mem_found_msgs cfg rel a e he')
    · exact Or.inr (Or.inl he')
  | ok u =>
    cases u
    cases hcs : (symlink_if_enabled cfg fs a).2 with
    | error err =>
      rw [fresh_install_sym_err cfg fs net rel a err hda hcs] at he
      rcases List.mem_append.mp he with he' | he'
      · rcases List.mem_append.mp he' with h2 | h2
        · rcases List.mem_append.mp h2 with h3 | h3
          · exact Or.inl (mem_found_msgs cfg rel a e h3)
          · exact Or.inr (Or.inl h3)
        · rcases List.mem_cons.mp h2 with rfl | h3
          · exact Or.inr (Or.inr (Or.inl rfl))
          · by_cases hq : cfg.quiet
            · rw [if_pos hq] at h3; simp at h3
            · rw [if_neg hq] at h3
              simp at h3
              exact Or.inl ⟨_, h3⟩
      · rcases mem_symlink_if_enabled cfg fs a e he' with h | h
        · exact Or.inr (Or.inr (Or.inr (Or.inl h)))
        · exact Or.inr (Or.inr (Or.inr (Or.inr h)))
    | ok u' =>
      cases u'
      rw [fresh_install_ok cfg fs net rel a hda hcs] at he
      rcases List.mem_append.mp he with he' | he'
      · rcases List.mem_append.mp he' with h2 | h2
        · rcases List.mem_append.mp h2 with h3 | h3
          · rcases List.mem_append.mp h3 with h4 | h4
            · exact Or.inl (mem_found_msgs cfg rel a e h4)
            · exact Or.inr (Or.inl h4)
          · rcases List.mem_cons.mp h3 with rfl | h4
            · exact Or.inr (Or.inr (Or.inl rfl))
            · by_cases hq : cfg.quiet
              · rw [if_pos hq] at h4; simp at h4
              · rw [if_neg hq] at h4
                simp at h4
                exact Or.inl ⟨_, h4⟩
        · rcases mem_symlink_if_enabled cfg fs a e h2 with h | h
          · exact Or.inr (Or.inr (Or.inr (Or.inl h)))
          · exact Or.inr (Or.inr (Or.inr (Or.inr h)))
      · exact Or.inl (mem_final_msgs cfg rel e he')

lemma mem_run_install (cfg : Config) (fs : FS) (net : Net) (rel : Release)
    (a : Asset) (e : Eff) (he : e ∈ (run_install cfg fs net rel a).1) :
    (∃ s, e = Eff.print s) ∨
    e ∈ (download_asset cfg fs net a (install_path cfg a)).1 ∨
    e = Eff.setPerms (install_path cfg a) (fs.mode (install_path cfg a) ||| 0o755) ∨
    e = Eff.removeFile (cfg.install_dir ++ "/joplin") ∨
    e = Eff.symlink a.name (cfg.install_dir ++ "/joplin") := by
  unfold run_install at he
  split_ifs at he with h1
  · rcases mem_short_circuit cfg fs rel a e he with h | h | h | h
    · exact Or.inl h
    · exact Or.inr (Or.inr (Or.inl h))
    · exact Or.inr (Or.inr (Or.inr (Or.inl h)))
    · exact Or.inr (Or.inr (Or.inr (Or.inr h)))
  · exact mem_fresh_install cfg fs net rel a e he

lemma mem_run_release (cfg : Config) (fs : FS) (net : Net) (e : Eff)
    (he : e ∈ (run_release cfg fs net).1) :
    e = Eff.httpGetMetadata api_url ∨
    ∃ rel a, (fetch_release net).2 = .ok rel ∧ select_asset rel = .ok a ∧
      e ∈ (run_install cfg fs net rel a).1 := by
  cases hf : (fetch_release net).2 with
  | error err =>
    rw [run_release_fetch_err cfg fs net err hf] at he
    simp at he
    exact Or.inl he
  | ok rel =>
    cases hs : select_asset rel with
    | error err =>
      rw [run_release_sel_err cfg fs net rel err hf hs] at he
      simp at he
      exact Or.inl he
    | ok a =>
      rw [run_release_ok cfg fs net rel a hf hs] at he
      rcases List.mem_cons.mp he with rfl | he'
      · exact Or.inl rfl
      · exact Or.inr ⟨rel, a, rfl, hs, he'⟩

lemma mem_run (home : Option String) (argv : List String) (fs : FS) (net : Net)
    (e : Eff) (he : e ∈ (run home argv fs net).1) :
    e = Eff.printHelp ∨
    ∃ h cfg, home = some h ∧
      parse_args (argv.drop 1) (default_config h) = .proceed cfg ∧
      (e ∈ (prepare_dir cfg fs).1 ∨ e ∈ (run_release cfg fs net).1) := by
  cases home with
  | none => simp [run] at he
  | some h =>
    simp only [run] at he
    cases hp : parse_args (argv.drop 1) (default_config h) with
    | help =>
      simp only [hp] at he
      simp at he
      exact Or.inl he
    | proceed cfg =>
      simp only [hp] at he
      cases hd : (prepare_dir cfg fs).2 with
      | error err =>
        simp only [hd] at he
        exact Or.inr ⟨h, cfg, rfl, hp, Or.inl he⟩
      | ok u =>
        cases u
        simp only [hd] at he
        rcases List.mem_append.mp he with he' | he'
        · exact Or.inr ⟨h, cfg, rfl, hp, Or.inl he'⟩
        · exact Or.inr ⟨h, cfg, rfl, hp, Or.inr he'⟩

/-! ## Asset-selection lemmas -/

lemma find?_eq_some_split {α : Type} (p : α → Bool) :
    ∀ (l : List α) (a : α), l.find? p = some a →
      p a = true ∧ ∃ l1 l2, l = l1 ++ a :: l2 ∧ ∀ b ∈ l1, p b = false := by
  intro l
  induction l with
  | nil => intro a h; simp at h
  | cons x xs ih =>
    intro a h
    by_cases hx : p x = true
    · rw [List.find?_cons_of_pos xs hx] at h
      obtain rfl : x = a := by injection h
      exact ⟨hx, [], xs, rfl, by simp⟩
    · rw [List.find?_cons_of_neg xs hx] at h
      obtain ⟨hpa, l1, l2, hsplit, hl1⟩ := ih a h
      refine ⟨hpa, x :: l1, l2, by rw [hsplit, List.cons_append], ?_⟩
      intro b hb
      rcases List.mem_cons.mp hb with rfl | hb'
      · exact Bool.eq_false_iff.mpr hx
      · exact hl1 b hb'

lemma select_asset_first (rel : Release) (a : Asset)
    (h : select_asset rel = .ok a) :
    ends_with a.name ".AppImage" = true ∧
    ∃ l1 l2, rel.assets = l1 ++ a :: l2 ∧
      ∀ b ∈ l1, ends_with b.name ".AppImage" = false := by
  unfold select_asset at h
  cases hf : rel.assets.find? (fun b => ends_with b.name ".AppImage") with
  | none => rw [hf] at h; simp at h
  | some a' =>
    rw [hf] at h
    obtain rfl : a' = a := by injection h
    exact find?_eq_some_split _ rel.assets _ hf

lemma select_asset_none (rel : Release)
    (h : ∀ b ∈ rel.assets, ends_with b.name ".AppImage" = false) :
    select_asset rel = .error .noMatchingAsset := by
  have hf : rel.assets.find? (fun b => ends_with b.name ".AppImage") = none :=
    List.find?_eq_none.mpr (fun b hb => by simp [h b hb])
  simp [select_asset, hf]

/-! ## Claim C3 -/

/-- C3: the resolver returns the first asset, in the input order of the
asset list, whose name ends with the case-sensitive suffix ".AppImage"
(every asset before it fails the suffix test); when no asset name matches,
the run that reached asset selection terminates with the no-matching-asset
error and its trace creates and writes no file. -/
theorem first_appimage_asset_selected :
    (∀ (rel : Release) (a : Asset), select_asset rel = .ok a →
      ends_with a.name ".AppImage" = true ∧
      ∃ l1 l2, rel.assets = l1 ++ a :: l2 ∧
        ∀ b ∈ l1, ends_with b.name ".AppImage" = false) ∧
    (∀ rel : Release, (∀ b ∈ rel.assets, ends_with b.name ".AppImage" = false) →
      select_asset rel = .error .noMatchingAsset) ∧
    (∀ (h : String) (argv : List String) (fs : FS) (net : Net) (cfg : Config)
        (mr : MetaResponse) (rel : Release),
      parse_args (argv.drop 1) (default_config h) = .proceed cfg →
      (prepare_dir cfg fs).2 = .ok () →
      net.metadata = some mr → mr.body = some rel →
      (∀ b ∈ rel.assets, ends_with b.name ".AppImage" = false) →
      (run (some h) argv fs net).2 = .error .noMatchingAsset ∧
      (∀ p, Eff.fileCreate p ∉ (run (some h) argv fs net).1) ∧
      (∀ p b, Eff.fileWrite p b ∉ (run (some h) argv fs net).1)) := by
  refine ⟨select_asset_first, select_asset_none, ?_⟩
  intro h argv fs net cfg mr rel hp hdok hm hb hnone
  have hsel := select_asset_none rel hnone
  have hfr := fetch_release_ok net mr rel hm hb
  have hrr := run_release_sel_err cfg fs net rel Err.noMatchingAsset hfr hsel
  have hrun := run_proceed_eq h argv fs net cfg hp hdok
  rw [hrr] at hrun
  refine ⟨by rw [hrun], ?_, ?_⟩
  · intro p hmem
    rw [hrun] at hmem
    rcases List.mem_append.mp hmem with h' | h'
    · rcases mem_prepare_dir cfg fs _ h' with h2 | h2 <;> simp at h2
    · simp at h'
  · intro p b hmem
    rw [hrun] at hmem
    rcases List.mem_append.mp hmem with h' | h'
    · rcases mem_prepare_dir cfg fs _ h' with h2 | h2 <;> simp at h2
    · simp at h'

/-- A release with a .deb before two .AppImage assets. -/
def rel3 : Release :=
  ⟨"v2", [⟨"x.deb", "u1"⟩, ⟨"b.AppImage", "u2"⟩, ⟨"c.AppImage", "u3"⟩]⟩

/-- A release whose only asset has the lowercase suffix ".appimage". -/
def relLower : Release := ⟨"v2", [⟨"x.appimage", "u1"⟩]⟩

/-- A filesystem on which every path is an existing directory. -/
def fsAllDirs : FS := ⟨fun _ => .dir, fun _ => 0o644, true, true⟩

/-- A network whose metadata request succeeds with `relLower`. -/
def netLower : Net := ⟨some ⟨200, some relLower⟩, fun _ => none⟩

/-- Witness for C3 on concrete releases: among a .deb and two .AppImage
assets the first .AppImage wins; a lowercase ".appimage" does not match;
and a release with no matching asset makes a concrete run fail with
the no-matching-asset error and an empty write set. -/
theorem first_appimage_asset_selected_witness :
    select_asset rel3 = .ok ⟨"b.AppImage", "u2"⟩ ∧
    select_asset relLower = .error .noMatchingAsset ∧
    (ends_with "b.AppImage" ".AppImage" = true ∧
      ∃ l1 l2, rel3.assets = l1 ++ (⟨"b.AppImage", "u2"⟩ : Asset) :: l2 ∧
        ∀ b ∈ l1, ends_with b.name ".AppImage" = false) ∧
    ((run (some "/h") ["prog", "-d", "/i"] fsAllDirs netLower).2 =
      .error .noMatchingAsset ∧
     (∀ p, Eff.fileCreate p ∉
        (run (some "/h") ["prog", "-d", "/i"] fsAllDirs netLower).1) ∧
     (∀ p b, Eff.fileWrite p b ∉
        (run (some "/h") ["prog", "-d", "/i"] fsAllDirs netLower).1)) :=
  ⟨rfl,
   rfl,
   first_appimage_asset_selected.1 rel3 ⟨"b.AppImage", "u2"⟩ rfl,
   first_appimage_asset_selected.2.2 "/h" ["prog", "-d", "/i"] fsAllDirs
     netLower ⟨"/i", true, false, false⟩ ⟨200, some relLower⟩ relLower
     rfl rfl rfl rfl (by decide)⟩

/-! ## Claim C6 -/

/-- C6: every permission change the program performs, on the short-circuit
path and after a fresh download alike, writes the mode the OS reported for
that path bitwise-OR 0o755: all rwxr-xr-x bits are present afterwards and
no previously set bit is removed. -/
theorem every_perm_change_ors_0o755 (home : Option String) (argv : List String)
    (fs : FS) (net : Net) (p : String) (m : Nat)
    (hm : Eff.setPerms p m ∈ (run home argv fs net).1) :
    m = fs.mode p ||| 0o755 ∧ 0o755 ||| m = m ∧ fs.mode p ||| m = m := by
  have hshape : m = fs.mode p ||| 0o755 := by
    rcases mem_run home argv fs net _ hm with h | ⟨h, cfg, _, _, hmem | hmem⟩
    · simp at h
    · rcases mem_prepare_dir cfg fs _ hmem with h' | h' <;> simp at h'
    · rcases mem_run_release cfg fs net _ hmem with h' | ⟨rel, a, _, _, hri⟩
      · simp at h'
      · rcases mem_run_install cfg fs net rel a _ hri with ⟨s, h'⟩ | h' | h' | h' | h'
        · simp at h'
        · rcases mem_download_asset cfg fs net a _ _ h' with h2 | ⟨v, h2⟩ | h2 | ⟨b, h2⟩ <;>
            simp at h2
        · simp only [Eff.setPerms.injEq] at h'
          obtain ⟨rfl, hm'⟩ := h'
          exact hm'
        · simp at h'
        · simp at h'
  subst hshape
  refine ⟨rfl, ?_, ?_⟩
  · rw [Nat.lor_comm 0o755 (fs.mode p ||| 0o755), Nat.lor_assoc, Nat.or_self]
  · rw [← Nat.lor_assoc, Nat.or_self]

/-- Witness for C6 on a concrete short-circuit run: the file at the
install path has mode 0o644 and the recorded permission change is to
0o644 OR 0o755 = 0o755, keeping every old bit. -/
theorem every_perm_change_ors_0o755_witness :
    Eff.setPerms "/i/a.AppImage" 493 ∈
      (run (some "/h") ["prog", "-d", "/i"]
        (FS.mk (fun p => if p = "/i/a.AppImage" then .file else
          if p = "/i" then .dir else .absent) (fun _ => 0o644) true true)
        (Net.mk (some ⟨200, some rel1⟩) (fun _ => none))).1 ∧
    (493 : Nat) =
      (FS.mk (fun p => if p = "/i/a.AppImage" then .file else
        if p = "/i" then .dir else .absent) (fun _ => 0o644) true true).mode
          "/i/a.AppImage" ||| 0o755 ∧
    (0o755 : Nat) ||| 493 = 493 ∧
    (FS.mk (fun p => if p = "/i/a.AppImage" then .file else
      if p = "/i" then .dir else .absent) (fun _ => 0o644) true true).mode
        "/i/a.AppImage" ||| 493 = 493 :=
  ⟨by decide,
   every_perm_change_ors_0o755 (some "/h") ["prog", "-d", "/i"]
     (FS.mk (fun p => if p = "/i/a.AppImage" then .file else
       if p = "/i" then .dir else .absent) (fun _ => 0o644) true true)
     (Net.mk (some ⟨200, some rel1⟩) (fun _ => none))
     "/i/a.AppImage" 493 (by decide)⟩

/-! ## Claim C7 -/

/-- A filesystem where only the install directory `/i` exists. -/
def fsDirOnly : FS :=
  ⟨fun p => if p = "/i" then .dir else .absent, fun _ => 0o644, true, true⟩

/-- A metadata reply with non-success status 500 whose body nevertheless
deserializes as the one-asset release `rel1`. -/
def net500 : Net := ⟨some ⟨500, some rel1⟩, fun _ => none⟩

/-- C7 as stated is refuted: main.rs lines 81-86 never check the HTTP
status of the metadata response (there is no `error_for_status` on that
request).  Here the latest-release request returns status 500 with a body
that deserializes as a release, and the program still proceeds to asset
selection and issues the asset download GET instead of terminating. -/
theorem metadata_status_unchecked :
    net500.metadata = some ⟨500, some rel1⟩ ∧
    400 ≤ 500 ∧
    (run (some "/h") ["prog", "-d", "/i"] fsDirOnly net500).1 =
      [Eff.httpGetMetadata api_url,
       Eff.print "Found Joplin v1 (a.AppImage)",
       Eff.print "Downloading to /i/a.AppImage...",
       Eff.httpGetAsset "u"] :=
  ⟨rfl, by norm_num, rfl⟩

/-- C7 amended: for the release-metadata request, a network send failure
or a body that fails to deserialize as a release is fatal — the run exits
non-zero without reaching asset selection or download — and the request is
issued at most once on any run, never retried.  The HTTP status of this
response is not checked, so only these two failure modes abort here. -/
theorem metadata_failure_fatal_not_retried :
    (∀ (h : String) (argv : List String) (fs : FS) (net : Net) (cfg : Config),
      parse_args (argv.drop 1) (default_config h) = .proceed cfg →
      (prepare_dir cfg fs).2 = .ok () → net.metadata = none →
      (run (some h) argv fs net).2 = .error .sendFailed ∧
      (∀ u, Eff.httpGetAsset u ∉ (run (some h) argv fs net).1) ∧
      (∀ p, Eff.fileCreate p ∉ (run (some h) argv fs net).1)) ∧
    (∀ (h : String) (argv : List String) (fs : FS) (net : Net) (cfg : Config)
        (mr : MetaResponse),
      parse_args (argv.drop 1) (default_config h) = .proceed cfg →
      (prepare_dir cfg fs).2 = .ok () → net.metadata = some mr →
      mr.body = none →
      (run (some h) argv fs net).2 = .error .jsonFailed ∧
      (∀ u, Eff.httpGetAsset u ∉ (run (some h) argv fs net).1) ∧
      (∀ p, Eff.fileCreate p ∉ (run (some h) argv fs net).1)) ∧
    (∀ (home : Option String) (argv : List String) (fs : FS) (net : Net),
      ((run home argv fs net).1.count (Eff.httpGetMetadata api_url)) ≤ 1) := by
  have habort : ∀ (h : String) (argv : List String) (fs : FS) (net : Net)
      (cfg : Config) (err : Err),
      parse_args (argv.drop 1) (default_config h) = .proceed cfg →
      (prepare_dir cfg fs).2 = .ok () → (fetch_release net).2 = .error err →
      (run (some h) argv fs net).2 = .error err ∧
      (∀ u, Eff.httpGetAsset u ∉ (run (some h) argv fs net).1) ∧
      (∀ p, Eff.fileCreate p ∉ (run (some h) argv fs net).1) := by
    intro h argv fs net cfg err hp hdok hf
    have h1 := run_proceed_eq h argv fs net cfg hp hdok
    rw [run_release_fetch_err cfg fs net err hf] at h1
    refine ⟨by rw [h1], ?_, ?_⟩
    · intro u hmem
      rw [h1] at hmem
      rcases List.mem_append.mp hmem with h' | h'
      · rcases mem_prepare_dir cfg fs _ h' with h2 | h2 <;> simp at h2
      · simp at h'
    · intro p hmem
      rw [h1] at hmem
      rcases List.mem_append.mp hmem with h' | h'
      · rcases mem_prepare_dir cfg fs _ h' with h2 | h2 <;> simp at h2
      · simp at h'
  refine ⟨?_, ?_, ?_⟩
  · intro h argv fs net cfg hp hdok hm
    exact habort h argv fs net cfg .sendFailed hp hdok
      (fetch_release_send_failed net hm)
  · intro h argv fs net cfg mr hp hdok hm hb
    exact habort h argv fs net cfg .jsonFailed hp hdok
      (fetch_release_json_failed net mr hm hb)
  · intro home argv fs net
    cases home with
    | none => simp [run]
    | some h =>
      simp only [run]
      cases hp : parse_args (argv.drop 1) (default_config h) with
      | help => simp
      | proceed cfg =>
        have hpd0 : (prepare_dir cfg fs).1.count (Eff.httpGetMetadata api_url) = 0 :=
          List.count_eq_zero.mpr (fun hmem => by
            rcases mem_prepare_dir cfg fs _ hmem with h' | h' <;> simp at h')
        cases hd : (prepare_dir cfg fs).2 with
        | error err =>
          simp only [hd]
          rw [hpd0]
          exact Nat.zero_le 1
        | ok u =>
          cases u
          simp only [hd]
          rw [List.count_append, hpd0, Nat.zero_add]
          cases hf : (fetch_release net).2 with
          | error err =>
            rw [run_release_fetch_err cfg fs net err hf]
            simp
          | ok rel =>
            cases hs : select_asset rel with
            | error err =>
              rw [run_release_sel_err cfg fs net rel err hf hs]
              simp
            | ok a =>
              rw [run_release_ok cfg fs net rel a hf hs]
              have hri0 : (run_install cfg fs net rel a).1.count
                  (Eff.httpGetMetadata api_url) = 0 :=
                List.count_eq_zero.mpr (fun hmem => by
                  rcases mem_run_install cfg fs net rel a _ hmem with
                    ⟨s, h'⟩ | h' | h' | h' | h'
                  · simp at h'
                  · rcases mem_download_asset cfg fs net a _ _ h' with
                      h2 | ⟨v, h2⟩ | h2 | ⟨b, h2⟩ <;> simp at h2
                  · simp at h'
                  · simp at h'
                  · simp at h')
              rw [List.count_cons, hri0]
              simp

/-- Witness for C7 amended: a concrete run whose metadata request fails to
send exits with the send error, performs no asset request and creates no
file, and a run that does succeed issues the metadata request once. -/
theorem metadata_failure_fatal_not_retried_witness :
    ((run (some "/h") ["prog", "-d", "/i"] fsAllDirs net0).2 =
      .error .sendFailed ∧
     (∀ u, Eff.httpGetAsset u ∉
        (run (some "/h") ["prog", "-d", "/i"] fsAllDirs net0).1) ∧
     (∀ p, Eff.fileCreate p ∉
        (run (some "/h") ["prog", "-d", "/i"] fsAllDirs net0).1)) ∧
    ((run (some "/h") ["prog", "-d", "/i"] fsDirOnly net500).1.count
      (Eff.httpGetMetadata api_url)) ≤ 1 :=
  ⟨metadata_failure_fatal_not_retried.1 "/h" ["prog", "-d", "/i"] fsAllDirs
     net0 ⟨"/i", true, false, false⟩ rfl rfl rfl,
   metadata_failure_fatal_not_retried.2.2 (some "/h") ["prog", "-d", "/i"]
     fsDirOnly net500⟩

/-! ## Claim C2 -/

/-- A filesystem where the asset is already installed at `/i/a.AppImage`
and a directory occupies the symlink path `/i/joplin`. -/
def fsJoplinDir : FS :=
  ⟨fun p => if p = "/i/joplin" then .dir else
    if p = "/i/a.AppImage" then .file else
    if p = "/i" then .dir else .absent,
   fun _ => 0o644, true, true⟩

/-- A filesystem where the asset is already installed at `/i/a.AppImage`
and nothing occupies the symlink path. -/
def fsInstalled : FS :=
  ⟨fun p => if p = "/i/a.AppImage" then .file else
    if p = "/i" then .dir else .absent,
   fun _ => 0o644, true, true⟩

/-- A healthy network for `rel1`: metadata succeeds with status 200. -/
def net200 : Net := ⟨some ⟨200, some rel1⟩, fun _ => none⟩

/-- C2 as stated is refuted on its exit-code clause: the asset file exists
at installDir/assetName, `--force` is absent and symlink creation is
enabled, yet the run exits non-zero, because a directory named `joplin`
occupies the symlink path and `fs::remove_file` fails on it.  (The
no-download and permission clauses of C2 do hold; see the amended
theorem.) -/
theorem already_installed_nonzero_exit :
    fsJoplinDir.entryAt "/i/a.AppImage" = .file ∧
    (run (some "/h") ["prog", "-d", "/i"] fsJoplinDir net200).2 =
      .error .removeFailed :=
  ⟨rfl, rfl⟩

/-- C2 amended: when a filesystem entry exists at installDir/assetName and
`--force` was not given, the program issues no HTTP request to the asset
URL and creates no file, records a permission change to the existing
mode OR 0o755, and attempts the symlink step exactly when enabled; it
exits 0 when symlink creation is disabled or succeeds (symlink path
absent, a regular file, or a live symlink), and exits non-zero — still
without downloading — when the symlink path holds a directory. -/
theorem already_installed_short_circuit (h : String) (argv : List String)
    (fs : FS) (net : Net) (cfg : Config) (mr : MetaResponse) (rel : Release)
    (a : Asset)
    (hp : parse_args (argv.drop 1) (default_config h) = .proceed cfg)
    (hdok : (prepare_dir cfg fs).2 = .ok ())
    (hm : net.metadata = some mr) (hb : mr.body = some rel)
    (hs : select_asset rel = .ok a)
    (he : entryExists (fs.entryAt (install_path cfg a)) = true)
    (hf : cfg.force_update = false) :
    (∀ u, Eff.httpGetAsset u ∉ (run (some h) argv fs net).1) ∧
    (∀ p, Eff.fileCreate p ∉ (run (some h) argv fs net).1) ∧
    Eff.setPerms (install_path cfg a)
        (fs.mode (install_path cfg a) ||| 0o755) ∈
      (run (some h) argv fs net).1 ∧
    (run (some h) argv fs net).2 = (symlink_if_enabled cfg fs a).2 ∧
    (cfg.create_symlink = false → (run (some h) argv fs net).2 = .ok ()) ∧
    (cfg.create_symlink = true →
      (fs.entryAt (cfg.install_dir ++ "/joplin") = .absent ∨
       fs.entryAt (cfg.install_dir ++ "/joplin") = .file ∨
       fs.entryAt (cfg.install_dir ++ "/joplin") = .liveSymlink) →
      (run (some h) argv fs net).2 = .ok () ∧
      Eff.symlink a.name (cfg.install_dir ++ "/joplin") ∈
        (run (some h) argv fs net).1) ∧
    (cfg.create_symlink = true →
      fs.entryAt (cfg.install_dir ++ "/joplin") = .dir →
      (run (some h) argv fs net).2 = .error .removeFailed) := by
  have hfr := fetch_release_ok net mr rel hm hb
  have h2 := run_release_ok cfg fs net rel a hfr hs
  rw [run_install_short_eq cfg fs net rel a he hf] at h2
  have h1 := run_proceed_eq h argv fs net cfg hp hdok
  rw [h2] at h1
  have hsc2 : (short_circuit cfg fs rel a).2 = (symlink_if_enabled cfg fs a).2 := rfl
  refine ⟨?_, ?_, ?_, ?_, ?_, ?_, ?_⟩
  · intro u hmem
    rw [h1] at hmem
    rcases List.mem_append.mp hmem with h' | h'
    · rcases mem_prepare_dir cfg fs _ h' with h2' | h2' <;> simp at h2'
    · rcases List.mem_cons.mp h' with h2' | h2'
      · simp at h2'
      · rcases mem_short_circuit cfg fs rel a _ h2' with ⟨s, h3⟩ | h3 | h3 | h3 <;>
          simp at h3
  · intro p hmem
    rw [h1] at hmem
    rcases List.mem_append.mp hmem with h' | h'
    · rcases mem_prepare_dir cfg fs _ h' with h2' | h2' <;> simp at h2'
    · rcases List.mem_cons.mp h' with h2' | h2'
      · simp at h2'
      · rcases mem_short_circuit cfg fs rel a _ h2' with ⟨s, h3⟩ | h3 | h3 | h3 <;>
          simp at h3
  · rw [h1]
    refine List.mem_append.mpr (Or.inr (List.mem_cons_of_mem _ ?_))
    show Eff.setPerms (install_path cfg a) (fs.mode (install_path cfg a) ||| 0o755) ∈
      (short_circuit cfg fs rel a).1
    unfold short_circuit
    exact List.mem_append.mpr (Or.inr (List.mem_cons_self _ _))
  · rw [h1]
    exact hsc2
  · intro hcs
    rw [h1]
    show (symlink_if_enabled cfg fs a).2 = .ok ()
    simp [symlink_if_enabled, hcs]
  · intro hcs hgood
    have hjs : symlink_if_enabled cfg fs a = create_joplin_symlink fs cfg.install_dir a.name := by
      simp [symlink_if_enabled, hcs]
    constructor
    · rw [h1]
      show (symlink_if_enabled cfg fs a).2 = .ok ()
      rw [hjs]
      rcases hgood with hg | hg | hg
      · rw [create_joplin_symlink_absent fs cfg.install_dir a.name hg]
      · rw [create_joplin_symlink_removable fs cfg.install_dir a.name (Or.inl hg)]
      · rw [create_joplin_symlink_removable fs cfg.install_dir a.name (Or.inr hg)]
    · rw [h1]
      refine List.mem_append.mpr (Or.inr (List.mem_cons_of_mem _ ?_))
      show Eff.symlink a.name (cfg.install_dir ++ "/joplin") ∈
        (short_circuit cfg fs rel a).1
      unfold short_circuit
      refine List.mem_append.mpr (Or.inr (List.mem_cons_of_mem _ ?_))
      rw [hjs]
      rcases hgood with hg | hg | hg
      · rw [create_joplin_symlink_absent fs cfg.install_dir a.name hg]
        simp
      · rw [create_joplin_symlink_removable fs cfg.install_dir a.name (Or.inl hg)]
        simp
      · rw [create_joplin_symlink_removable fs cfg.install_dir a.name (Or.inr hg)]
        simp
  · intro hcs hdir
    rw [h1]
    show (symlink_if_enabled cfg fs a).2 = .error .removeFailed
    simp only [symlink_if_enabled, hcs, if_true]
    rw [create_joplin_symlink_dir fs cfg.install_dir a.name hdir]

/-- Witness for C2 amended on a concrete installed world: no asset GET, a
permission widening on the installed file, symlink created and exit 0. -/
theorem already_installed_short_circuit_witness :
    (∀ u, Eff.httpGetAsset u ∉
      (run (some "/h") ["prog", "-d", "/i"] fsInstalled net200).1) ∧
    Eff.setPerms "/i/a.AppImage" (fsInstalled.mode "/i/a.AppImage" ||| 0o755) ∈
      (run (some "/h") ["prog", "-d", "/i"] fsInstalled net200).1 ∧
    (run (some "/h") ["prog", "-d", "/i"] fsInstalled net200).2 = .ok () ∧
    Eff.symlink "a.AppImage" ("/i" ++ "/joplin") ∈
      (run (some "/h") ["prog", "-d", "/i"] fsInstalled net200).1 := by
  have H := already_installed_short_circuit "/h" ["prog", "-d", "/i"]
    fsInstalled net200 ⟨"/i", true, false, false⟩ ⟨200, some rel1⟩ rel1
    ⟨"a.AppImage", "u"⟩ rfl rfl rfl rfl rfl (by decide) rfl
  have Hgood := H.2.2.2.2.2.1 rfl (Or.inl rfl)
  exact ⟨H.1, H.2.2.1, Hgood.1, Hgood.2⟩

/-! ## Claim C10 -/

/-- C10: on a non-help invocation with an absent install directory and a
working mkdir, the very first effect of the run is the recursive creation
of the install directory — in particular it precedes any network request —
and each of the three later failures (send failure, malformed JSON, no
matching asset) still ends a run whose trace begins with, and hence
contains, that directory creation. -/
theorem dir_created_before_metadata (h : String) (argv : List String)
    (fs : FS) (net : Net) (cfg : Config)
    (hp : parse_args (argv.drop 1) (default_config h) = .proceed cfg)
    (habs : entryExists (fs.entryAt cfg.install_dir) = false)
    (hmk : fs.mkdir_ok = true) :
    (run (some h) argv fs net).1.head? =
      some (Eff.createDirAll cfg.install_dir) ∧
    Eff.createDirAll cfg.install_dir ∈ (run (some h) argv fs net).1 ∧
    (net.metadata = none →
      (run (some h) argv fs net).2 = .error .sendFailed) ∧
    (∀ mr, net.metadata = some mr → mr.body = none →
      (run (some h) argv fs net).2 = .error .jsonFailed) ∧
    (∀ mr rel, net.metadata = some mr → mr.body = some rel →
      (∀ b ∈ rel.assets, ends_with b.name ".AppImage" = false) →
      (run (some h) argv fs net).2 = .error .noMatchingAsset) := by
  have hpd := prepare_dir_created_eq cfg fs habs hmk
  have hdok : (prepare_dir cfg fs).2 = .ok () := by rw [hpd]
  have h1 := run_proceed_eq h argv fs net cfg hp hdok
  refine ⟨?_, ?_, ?_, ?_, ?_⟩
  · rw [h1, hpd]
    simp
  · rw [h1, hpd]
    simp
  · intro hm
    rw [h1, run_release_fetch_err cfg fs net .sendFailed
      (fetch_release_send_failed net hm)]
  · intro mr hm hb
    rw [h1, run_release_fetch_err cfg fs net .jsonFailed
      (fetch_release_json_failed net mr hm hb)]
  · intro mr rel hm hb hnone
    rw [h1, run_release_sel_err cfg fs net rel .noMatchingAsset
      (fetch_release_ok net mr rel hm hb) (select_asset_none rel hnone)]

/-- Witness for C10: with an empty filesystem and a dead network, the run
creates `/i` first and then fails on the metadata request, leaving the
directory-creation effect at the head of the trace. -/
theorem dir_created_before_metadata_witness :
    (run (some "/h") ["prog", "-d", "/i"] fs0 net0).1.head? =
      some (Eff.createDirAll "/i") ∧
    Eff.createDirAll "/i" ∈ (run (some "/h") ["prog", "-d", "/i"] fs0 net0).1 ∧
    (run (some "/h") ["prog", "-d", "/i"] fs0 net0).2 = .error .sendFailed := by
  have H := dir_created_before_metadata "/h" ["prog", "-d", "/i"] fs0 net0
    ⟨"/i", true, false, false⟩ rfl rfl rfl
  exact ⟨H.1, H.2.1, H.2.2.1 rfl⟩

/-! ## Download-loop and write-trace lemmas -/

lemma download_loop_fail (path : String) :
    ∀ (good : List ChunkStep) (bad : ChunkStep) (rest : List ChunkStep),
      (∀ s ∈ good, ∃ b, s = ChunkStep.chunk b true) →
      (bad = .readErr ∨ ∃ bb, bad = ChunkStep.chunk bb false) →
      (download_loop path (good ++ bad :: rest)).1 =
        good.map (fun s => Eff.fileWrite path (chunk_bytes s)) ∧
      ((download_loop path (good ++ bad :: rest)).2 = .error .readFailed ∨
       (download_loop path (good ++ bad :: rest)).2 = .error .writeFailed) := by
  intro good
  induction good with
  | nil =>
    intro bad rest _ hbad
    rcases hbad with rfl | ⟨bb, rfl⟩
    · exact ⟨rfl, Or.inl rfl⟩
    · exact ⟨by simp [download_loop], Or.inr (by simp [download_loop])⟩
  | cons s gs ih =>
    intro bad rest hgood hbad
    obtain ⟨b, rfl⟩ := hgood s (List.mem_cons_self s gs)
    obtain ⟨ih1, ih2⟩ := ih bad rest
      (fun t ht => hgood t (List.mem_cons_of_mem _ ht)) hbad
    refine ⟨?_, ?_⟩
    · simp only [List.cons_append, download_loop, if_true, List.map,
        List.append_eq]
      rw [ih1]
      rfl
    · simp only [List.cons_append, download_loop, if_true, List.append_eq]
      exact ih2

lemma writesTo_append (p : String) :
    ∀ l1 l2 : List Eff, writesTo p (l1 ++ l2) = writesTo p l1 ++ writesTo p l2 := by
  intro l1
  induction l1 with
  | nil => intro l2; rfl
  | cons e rest ih =>
    intro l2
    cases e
    case fileWrite q b =>
      by_cases hq : q = p
      · simp [writesTo, hq, ih]
      · simp [writesTo, hq, ih]
    all_goals simp [writesTo, ih]

lemma writesTo_nil_of_no_writes (p : String) :
    ∀ l : List Eff, (∀ b, Eff.fileWrite p b ∉ l) → writesTo p l = [] := by
  intro l
  induction l with
  | nil => intro _; rfl
  | cons e rest ih =>
    intro hno
    have hrest : ∀ b, Eff.fileWrite p b ∉ rest :=
      fun b hb => hno b (List.mem_cons_of_mem _ hb)
    have hr := ih hrest
    cases e
    case fileWrite q b =>
      by_cases hq : q = p
      · subst hq
        exact absurd (List.mem_cons_self _ _) (hno b)
      · simp [writesTo, hq, hr]
    all_goals simp [writesTo, hr]

lemma writesTo_map_chunks (p : String) :
    ∀ good : List ChunkStep,
      writesTo p (good.map (fun s => Eff.fileWrite p (chunk_bytes s))) =
        (good.map chunk_bytes).flatten := by
  intro good
  induction good with
  | nil => rfl
  | cons s gs ih => simp [writesTo, ih]

/-! ## Claim C8 -/

/-- C8: an I/O error during the chunked download — a chunk read error or a
failed chunk write — aborts the run with a non-zero exit; the asset
request was issued exactly once (no retry); the destination file was
created and the bytes written to it are exactly the chunks that succeeded
before the failure, so a truncated file remains at the install path; and
the trace contains no removal, i.e. no automatic cleanup. -/
theorem download_io_error_aborts (h : String) (argv : List String) (fs : FS)
    (net : Net) (cfg : Config) (mr : MetaResponse) (rel : Release) (a : Asset)
    (r : AssetResponse) (good : List ChunkStep) (bad : ChunkStep)
    (rest : List ChunkStep)
    (hp : parse_args (argv.drop 1) (default_config h) = .proceed cfg)
    (hdok : (prepare_dir cfg fs).2 = .ok ())
    (hm : net.metadata = some mr) (hb : mr.body = some rel)
    (hs : select_asset rel = .ok a)
    (hns : (entryExists (fs.entryAt (install_path cfg a)) && !cfg.force_update) = false)
    (ha : net.asset a.browser_download_url = some r)
    (hst : ¬ 400 ≤ r.status) (hc : fs.create_ok = true)
    (hch : r.chunks = good ++ bad :: rest)
    (hgood : ∀ s ∈ good, ∃ b, s = ChunkStep.chunk b true)
    (hbad : bad = .readErr ∨ ∃ bb, bad = ChunkStep.chunk bb false) :
    ((run (some h) argv fs net).2 = .error .readFailed ∨
     (run (some h) argv fs net).2 = .error .writeFailed) ∧
    Eff.fileCreate (install_path cfg a) ∈ (run (some h) argv fs net).1 ∧
    writesTo (install_path cfg a) (run (some h) argv fs net).1 =
      (good.map chunk_bytes).flatten ∧
    (∀ p, Eff.removeFile p ∉ (run (some h) argv fs net).1) ∧
    ((run (some h) argv fs net).1.count
      (Eff.httpGetAsset a.browser_download_url)) = 1 := by
  obtain ⟨hl1, hl2⟩ :=
    download_loop_fail (install_path cfg a) good bad rest hgood hbad
  rw [← hch] at hl1 hl2
  obtain ⟨e0, herr, he0⟩ :
      ∃ e0, (download_loop (install_path cfg a) r.chunks).2 = .error e0 ∧
        (e0 = Err.readFailed ∨ e0 = Err.writeFailed) := by
    rcases hl2 with h' | h'
    · exact ⟨.readFailed, h', Or.inl rfl⟩
    · exact ⟨.writeFailed, h', Or.inr rfl⟩
  have hda := download_asset_streaming cfg fs net a (install_path cfg a) r ha hst hc
  have hda2 : (download_asset cfg fs net a (install_path cfg a)).2 = .error e0 := by
    rw [hda]
    exact herr
  have hfi := fresh_install_download_err cfg fs net rel a e0 hda2
  have h2 := run_release_ok cfg fs net rel a (fetch_release_ok net mr rel hm hb) hs
  rw [run_install_fresh_eq cfg fs net rel a hns, hfi] at h2
  have h1 := run_proceed_eq h argv fs net cfg hp hdok
  rw [h2] at h1
  rw [hda, hl1] at h1
  have hT : (run (some h) argv fs net).1 =
      (prepare_dir cfg fs).1 ++ Eff.httpGetMetadata api_url ::
        (found_msgs cfg rel a ++
          (Eff.httpGetAsset a.browser_download_url ::
           Eff.progressBar (progress_bar_visible cfg.quiet r) ::
           Eff.fileCreate (install_path cfg a) ::
           good.map (fun s => Eff.fileWrite (install_path cfg a) (chunk_bytes s)))) := by
    rw [h1]
  have hO : (run (some h) argv fs net).2 = .error e0 := by rw [h1]
  have wpd : writesTo (install_path cfg a) (prepare_dir cfg fs).1 = [] :=
    writesTo_nil_of_no_writes _ _ (fun b hb => by
      rcases mem_prepare_dir cfg fs _ hb with h' | h' <;> simp at h')
  have wfound : writesTo (install_path cfg a) (found_msgs cfg rel a) = [] :=
    writesTo_nil_of_no_writes _ _ (fun b hb => by
      rcases mem_found_msgs cfg rel a _ hb with ⟨s, h'⟩
      simp at h')
  refine ⟨?_, ?_, ?_, ?_, ?_⟩
  · rcases he0 with rfl | rfl
    · exact Or.inl hO
    · exact Or.inr hO
  · rw [hT]
    refine List.mem_append.mpr (Or.inr (List.mem_cons_of_mem _ ?_))
    refine List.mem_append.mpr (Or.inr ?_)
    exact List.mem_cons_of_mem _ (List.mem_cons_of_mem _ (List.mem_cons_self _ _))
  · rw [hT, writesTo_append, wpd, List.nil_append]
    have step1 : writesTo (install_path cfg a)
        (Eff.httpGetMetadata api_url ::
          (found_msgs cfg rel a ++
            (Eff.httpGetAsset a.browser_download_url ::
             Eff.progressBar (progress_bar_visible cfg.quiet r) ::
             Eff.fileCreate (install_path cfg a) ::
             good.map (fun s => Eff.fileWrite (install_path cfg a) (chunk_bytes s))))) =
        writesTo (install_path cfg a)
          (found_msgs cfg rel a ++
            (Eff.httpGetAsset a.browser_download_url ::
             Eff.progressBar (progress_bar_visible cfg.quiet r) ::
             Eff.fileCreate (install_path cfg a) ::
             good.map (fun s => Eff.fileWrite (install_path cfg a) (chunk_bytes s)))) := by
      simp [writesTo]
    rw [step1, writesTo_append, wfound, List.nil_append]
    have step2 : writesTo (install_path cfg a)
        (Eff.httpGetAsset a.browser_download_url ::
          Eff.progressBar (progress_bar_visible cfg.quiet r) ::
          Eff.fileCreate (install_path cfg a) ::
          good.map (fun s => Eff.fileWrite (install_path cfg a) (chunk_bytes s))) =
        writesTo (install_path cfg a)
          (good.map (fun s => Eff.fileWrite (install_path cfg a) (chunk_bytes s))) := by
      simp [writesTo]
    rw [step2, writesTo_map_chunks]
  · intro p' hmem
    rw [hT] at hmem
    rcases List.mem_append.mp hmem with h' | h'
    · rcases mem_prepare_dir cfg fs _ h' with h2' | h2' <;> simp at h2'
    · rcases List.mem_cons.mp h' with h2' | h2'
      · simp at h2'
      · rcases List.mem_append.mp h2' with h3 | h3
        · rcases mem_found_msgs cfg rel a _ h3 with ⟨s, h4⟩
          simp at h4
        · rcases List.mem_cons.mp h3 with h4 | h4
          · simp at h4
          · rcases List.mem_cons.mp h4 with h5 | h5
            · simp at h5
            · rcases List.mem_cons.mp h5 with h6 | h6
              · simp at h6
              · simp [List.mem_map] at h6
  · have hc1 : ((prepare_dir cfg fs).1.count
        (Eff.httpGetAsset a.browser_download_url)) = 0 :=
      List.count_eq_zero.mpr (fun hmem => by
        rcases mem_prepare_dir cfg fs _ hmem with h' | h' <;> simp at h')
    have hc2 : ((found_msgs cfg rel a).count
        (Eff.httpGetAsset a.browser_download_url)) = 0 :=
      List.count_eq_zero.mpr (fun hmem => by
        rcases mem_found_msgs cfg rel a _ hmem with ⟨s, h'⟩
        simp at h')
    have hc3 : ((good.map (fun s =>
          Eff.fileWrite (install_path cfg a) (chunk_bytes s))).count
        (Eff.httpGetAsset a.browser_download_url)) = 0 :=
      List.count_eq_zero.mpr (fun hmem => by simp [List.mem_map] at hmem)
    rw [hT, List.count_append, hc1, List.count_cons, List.count_append, hc2,
      List.count_cons, List.count_cons, List.count_cons, hc3]
    simp

/-- A network whose asset stream delivers one good chunk of bytes `[7]`
and then hits a read error. -/
def netChunks : Net :=
  ⟨some ⟨200, some rel1⟩,
   fun _ => some ⟨200, some 2, [ChunkStep.chunk [7] true, ChunkStep.readErr]⟩⟩

/-- Witness for C8 on a concrete interrupted download: the run aborts with
the read error, the file was created, exactly the first chunk `[7]` is on
disk, nothing is removed, and the asset URL was requested once. -/
theorem download_io_error_aborts_witness :
    ((run (some "/h") ["prog", "-d", "/i"] fsDirOnly netChunks).2 =
        .error .readFailed ∨
     (run (some "/h") ["prog", "-d", "/i"] fsDirOnly netChunks).2 =
        .error .writeFailed) ∧
    Eff.fileCreate (install_path ⟨"/i", true, false, false⟩ ⟨"a.AppImage", "u"⟩) ∈
      (run (some "/h") ["prog", "-d", "/i"] fsDirOnly netChunks).1 ∧
    writesTo (install_path ⟨"/i", true, false, false⟩ ⟨"a.AppImage", "u"⟩)
      (run (some "/h") ["prog", "-d", "/i"] fsDirOnly netChunks).1 = [7] ∧
    (∀ p, Eff.removeFile p ∉
      (run (some "/h") ["prog", "-d", "/i"] fsDirOnly netChunks).1) ∧
    ((run (some "/h") ["prog", "-d", "/i"] fsDirOnly netChunks).1.count
      (Eff.httpGetAsset "u")) = 1 := by
  have H := download_io_error_aborts "/h" ["prog", "-d", "/i"] fsDirOnly
    netChunks ⟨"/i", true, false, false⟩ ⟨200, some rel1⟩ rel1
    ⟨"a.AppImage", "u"⟩ ⟨200, some 2, [ChunkStep.chunk [7] true, ChunkStep.readErr]⟩
    [ChunkStep.chunk [7] true] ChunkStep.readErr []
    rfl rfl rfl rfl rfl (by decide) rfl (by decide) rfl rfl
    (fun s hs => ⟨[7], List.mem_singleton.mp hs⟩) (Or.inl rfl)
  exact ⟨H.1, H.2.1, H.2.2.1.trans rfl, H.2.2.2.1, H.2.2.2.2⟩

end RustUnicorn
